import Mathlib

/-!
Shallow embedding of the starfield animation engine (src/js/starfield.js).

Conventions of the embedding:
* JavaScript numbers are modelled as rationals (ℚ); the arithmetic the
  program performs (+, -, *, /, min, pow with natural exponent) is exact on
  the inputs it uses, so ℚ is a faithful carrier.
* `Math.random()` draws are modelled as explicit parameters carrying the
  hypothesis `0 ≤ r < 1`; each call site receives its own draw.
* Mutation of a star object is modelled functionally: the function returns
  the updated star.
* The canvas 2D context is modelled as a trace of emitted commands
  (`CanvasCmd`); drawing functions return the updated store together with
  the list of commands they issued, in order.
-/

namespace Starfield

/-- Configuration constants (src/js/starfield.js lines 21-31). -/
def maxStarSize : ℚ := 8

def minStarSize : ℚ := 4

def numStars : ℕ := 3000

def minStarSpeed : ℚ := 1/20

def maxStarSpeed : ℚ := 1/4

def parallaxFactor : ℚ := 50

def BRIGHTNESS_CURVE_POWER : ℕ := 10

/-- Source: `GENERATION_AREA_MULTIPLIER = isTouchDevice ? 0.8 : 2.3` (line 29). -/
def GENERATION_AREA_MULTIPLIER (isTouch : Bool) : ℚ :=
  if isTouch then 4/5 else 23/10

/-- The fixed palette (line 31). -/
def starColors : List String :=
  ["#FFFFFF", "#B0C4DE", "#F5DEB3", "#FFFFE0", "#ffbbbbff"]

/-- A star/particle: position, depth, size and speed (color is the key of
the bucket that holds the star, it is not stored on the star itself). -/
structure Star where
  x : ℚ
  y : ℚ
  z : ℚ
  size : ℚ
  speed : ℚ
deriving DecidableEq, Repr

/-- The four `Math.random()` draws consumed by one `resetStar` call. -/
structure Rand where
  rx : ℚ
  ry : ℚ
  rsize : ℚ
  rspeed : ℚ
deriving DecidableEq, Repr

/-- A draw lies in the half-open unit interval, as `Math.random()` does. -/
def Rand.Valid (r : Rand) : Prop :=
  0 ≤ r.rx ∧ r.rx < 1 ∧ 0 ≤ r.ry ∧ r.ry < 1 ∧
  0 ≤ r.rsize ∧ r.rsize < 1 ∧ 0 ≤ r.rspeed ∧ r.rspeed < 1

/-- Embedding of `resetStar` (lines 53-63): assigns all five fields afresh from the
current visual bounds `w × h` and four random draws. The JS function
mutates its argument; since every field is overwritten the result does not
depend on the old star, so the embedding takes no star argument. -/
def resetStar (isTouch : Bool) (w h : ℚ) (r : Rand) : Star :=
  { x := (r.rx - 1/2) * w * GENERATION_AREA_MULTIPLIER isTouch
    y := (r.ry - 1/2) * h * GENERATION_AREA_MULTIPLIER isTouch
    z := w
    size := r.rsize * (maxStarSize - minStarSize) + minStarSize
    speed := r.rspeed * (maxStarSpeed - minStarSpeed) + minStarSpeed }

/-- The per-particle simulation update inside `draw`'s inner loop
(lines 116-121): `star.z -= star.speed; if (star.z <= 0) resetStar(star)`.
The random draws `r` are consumed only when the reset branch is taken. -/
def stepStar (isTouch : Bool) (w h : ℚ) (r : Rand) (s : Star) : Star :=
  let s1 : Star := { s with z := s.z - s.speed }
  if s1.z ≤ 0 then resetStar isTouch w h r else s1

/-- Source: `vanishingPointX = visualWidth / 2 - (mouseX * parallaxFactor)` (line 95). -/
def vanishingPointX (w mouseX : ℚ) : ℚ := w / 2 - mouseX * parallaxFactor

/-- Source: `vanishingPointY = visualHeight / 2 - (mouseY * parallaxFactor)` (line 96). -/
def vanishingPointY (h mouseY : ℚ) : ℚ := h / 2 - mouseY * parallaxFactor

/-- Source: `distanceFactor = (1 - star.z / visualWidth)` (line 128). -/
def distanceFactor (w z : ℚ) : ℚ := 1 - z / w

/-- Source: `finalSize = Math.pow(distanceFactor, BRIGHTNESS_CURVE_POWER) * star.size`
(line 129). -/
def finalSize (w : ℚ) (s : Star) : ℚ :=
  (distanceFactor w s.z) ^ BRIGHTNESS_CURVE_POWER * s.size

/-- Source: `finalAlpha = 0.7 + (distanceFactor * 0.3)` (line 130). -/
def finalAlpha (w z : ℚ) : ℚ := 7/10 + distanceFactor w z * (3/10)

/-- One canvas 2D context command, in the order the program issues them. -/
inductive CanvasCmd where
  | setGlobalTransform (a b c d e f : ℚ)
  | clearRect (x y w h : ℚ)
  | translate (x y : ℚ)
  | setFillStyle (c : String)
  | beginPath
  | setGlobalAlpha (a : ℚ)
  | moveTo (x y : ℚ)
  | arc (x y radius : ℚ)
  | fill
deriving DecidableEq, Repr

/-- Body of `draw`'s inner loop for one star (lines 115-136): advance the
simulation, project, and if the projected point passes the visibility test
append the star's shape to the current path (alpha set just before).
Returns the updated star and the commands issued for it. -/
def drawStar (isTouch : Bool) (w h vx vy : ℚ) (r : Rand) (s : Star) :
    Star × List CanvasCmd :=
  let s1 := stepStar isTouch w h r s
  let k := 128 / s1.z
  let px := s1.x * k
  let py := s1.y * k
  if -vx ≤ px ∧ px ≤ w - vx ∧ -vy ≤ py ∧ py ≤ h - vy then
    (s1, [CanvasCmd.setGlobalAlpha (min (finalAlpha w s1.z) 1),
          CanvasCmd.moveTo px py,
          CanvasCmd.arc px py (finalSize w s1 / 2)])
  else
    (s1, [])

/-- Embedding of `draw`'s inner loop over the stars of one bucket (lines 114-137).
`rnd i` supplies the random draws the iteration for star `i` would consume
if it resets; the counter `i` makes the draws per star independent. -/
def drawStars (isTouch : Bool) (w h vx vy : ℚ) (rnd : ℕ → Rand) :
    ℕ → List Star → List Star × List CanvasCmd
  | _, [] => ([], [])
  | i, s :: rest =>
    let p := drawStar isTouch w h vx vy (rnd i) s
    let q := drawStars isTouch w h vx vy rnd (i + 1) rest
    (p.1 :: q.1, p.2 ++ q.2)

/-- One iteration of `draw`'s outer loop (lines 105-139): set the fill
style once, begin one path, process every star of the bucket, then one
`fill` for the whole path. -/
def drawBucket (isTouch : Bool) (w h vx vy : ℚ) (rnd : ℕ → Rand)
    (color : String) (stars : List Star) : List Star × List CanvasCmd :=
  let q := drawStars isTouch w h vx vy rnd 0 stars
  (q.1, CanvasCmd.setFillStyle color :: CanvasCmd.beginPath :: q.2 ++ [CanvasCmd.fill])

/-- The store: buckets in palette order, each a color with its stars
(the `starsByColor` map, whose iteration order is insertion order). -/
def Store := List (String × List Star)

/-- Embedding of `draw`'s outer loop over all buckets (lines 105-140); bucket `b`'s
star `i` consumes the draws `rnd b i` on reset. -/
def drawBuckets (isTouch : Bool) (w h vx vy : ℚ) (rnd : ℕ → ℕ → Rand) :
    ℕ → Store → Store × List CanvasCmd
  | _, [] => ([], [])
  | b, (color, stars) :: rest =>
    let p := drawBucket isTouch w h vx vy (rnd b) color stars
    let q := drawBuckets isTouch w h vx vy rnd (b + 1) rest
    ((color, p.1) :: q.1, p.2 ++ q.2)

/-- The whole `draw` function (lines 92-142): recompute the vanishing
point from the current bounds and pointer state, clear and translate,
run the batch loop, and finally restore the global alpha to 1 (line 141). -/
def draw (isTouch : Bool) (w h mouseX mouseY dpr : ℚ) (rnd : ℕ → ℕ → Rand)
    (store : Store) : Store × List CanvasCmd :=
  let vx := vanishingPointX w mouseX
  let vy := vanishingPointY h mouseY
  let q := drawBuckets isTouch w h vx vy rnd 0 store
  (q.1,
   CanvasCmd.setGlobalTransform dpr 0 0 dpr 0 0 ::
   CanvasCmd.clearRect 0 0 w h ::
   CanvasCmd.translate vx vy ::
   q.2 ++ [CanvasCmd.setGlobalAlpha 1])

/-- The random draws one iteration of `initializeStars` consumes: the
palette pick, the `resetStar` draws, and the depth override. -/
structure InitRand where
  rcolor : ℚ
  reset : Rand
  rz : ℚ
deriving DecidableEq, Repr

def InitRand.Valid (r : InitRand) : Prop :=
  0 ≤ r.rcolor ∧ r.rcolor < 1 ∧ r.reset.Valid ∧ 0 ≤ r.rz ∧ r.rz < 1

/-- One iteration of `initializeStars`'s loop (lines 71-78): pick a color
uniformly from the palette, build the star by `resetStar`, then override
its depth with a uniform value in `[0, w)`. -/
def initStar (isTouch : Bool) (w h : ℚ) (r : InitRand) : String × Star :=
  let color := (starColors.getD (⌊r.rcolor * starColors.length⌋).toNat "#FFFFFF")
  let s := resetStar isTouch w h r.reset
  (color, { s with z := r.rz * w })

/-- Embedding of `starsByColor.get(color).push(star)`: append the star to the bucket
keyed by its color (present for every palette color). -/
def addToBucket : Store → String → Star → Store
  | [], _, _ => []
  | (c, stars) :: rest, color, s =>
    if c = color then (c, stars ++ [s]) :: rest
    else (c, stars) :: addToBucket rest color s

/-- The store after `starsByColor.forEach(arr => arr.length = 0)` (line 68):
every palette color keyed to an empty bucket, in palette order. -/
def emptyStore : Store := starColors.map (fun c => (c, []))

/-- Embedding of `initializeStars` (lines 66-79): clear every bucket, then append
`numStars` freshly generated stars, each to its color's bucket.
`rnd i` supplies iteration `i`'s random draws. -/
def initializeStars (isTouch : Bool) (w h : ℚ) (rnd : ℕ → InitRand) : Store :=
  (List.range numStars).foldl
    (fun st i =>
      let p := initStar isTouch w h (rnd i)
      addToBucket st p.1 p.2)
    emptyStore

/-!
Animation driver (lines 42, 144-161). The host's frame scheduler is
modelled explicitly: `requestAnimationFrame` hands out fresh ids and the
set of in-flight (requested, neither fired nor cancelled) requests is the
list `pending`; `cancelAnimationFrame id` withdraws `id` if it is in
flight and is a no-op otherwise (its DOM semantics).
-/

/-- Driver state: the page's hidden flag, the `animationFrameId` variable
(line 42), the in-flight requests of the scheduler, the next fresh id, and
the number of `draw()` calls performed so far. -/
structure Driver where
  hidden : Bool
  animationFrameId : ℕ
  pending : List ℕ
  nextId : ℕ
  frames : ℕ
deriving DecidableEq, Repr

/-- Embedding of `animate()` (lines 144-148): `draw()` then
`animationFrameId = requestAnimationFrame(animate)`. -/
def animate (d : Driver) : Driver :=
  { hidden := d.hidden
    animationFrameId := d.nextId
    pending := d.pending ++ [d.nextId]
    nextId := d.nextId + 1
    frames := d.frames + 1 }

/-- Embedding of `cancelAnimationFrame(animationFrameId)` (line 154): withdraw that id
from the in-flight requests; a no-op when it is not in flight. -/
def cancelFrame (d : Driver) : Driver :=
  { d with pending := d.pending.erase d.animationFrameId }

/-- Events the driver reacts to: a visibility toggle (the
`visibilitychange` listener, lines 152-158, with `document.hidden`
flipping on each change event), and the scheduler firing the oldest
in-flight frame request, whose callback is `animate`. -/
inductive DriverEvent where
  | toggleVisibility
  | frameFired
deriving DecidableEq, Repr

/-- One driver transition. -/
def driverStep (d : Driver) : DriverEvent → Driver
  | DriverEvent.toggleVisibility =>
    if d.hidden then animate { d with hidden := false }
    else cancelFrame { d with hidden := true }
  | DriverEvent.frameFired =>
    match d.pending with
    | [] => d
    | _ :: rest => animate { d with pending := rest }

/-- The initial call to `animate()` (line 161), on a visible page with no
request in flight. -/
def driverInit : Driver :=
  animate { hidden := false, animationFrameId := 0, pending := [], nextId := 0, frames := 0 }

/-- Run the driver over a finite event sequence. -/
def driverRun (evs : List DriverEvent) : Driver :=
  evs.foldl driverStep driverInit

/-!
Spec-side phased pipeline, for the refinement claim: the spec describes
each frame as a Simulation Step over the entire population first, then
projection/culling, then batched drawing. The following definitions
follow the spec's words; the refinement theorem compares them with the
interleaved `draw` embedded from the source.
-/

/-- Spec's Simulation Step over one bucket: advance every star, star `i`
consuming the draws `rnd i` if it resets. -/
def stepStars (isTouch : Bool) (w h : ℚ) (rnd : ℕ → Rand) :
    ℕ → List Star → List Star
  | _, [] => []
  | i, s :: rest =>
    stepStar isTouch w h (rnd i) s :: stepStars isTouch w h rnd (i + 1) rest

/-- Spec's Simulation Step over the entire store, before any drawing. -/
def simulateStore (isTouch : Bool) (w h : ℚ) (rnd : ℕ → ℕ → Rand) :
    ℕ → Store → Store
  | _, [] => []
  | b, (color, stars) :: rest =>
    (color, stepStars isTouch w h (rnd b) 0 stars) ::
      simulateStore isTouch w h rnd (b + 1) rest

/-- Spec's Projector + appender for one already-simulated star: project,
cull against the visible rectangle, and if visible append the shape with
its alpha. -/
def renderStar (w h vx vy : ℚ) (s : Star) : List CanvasCmd :=
  let k := 128 / s.z
  let px := s.x * k
  let py := s.y * k
  if -vx ≤ px ∧ px ≤ w - vx ∧ -vy ≤ py ∧ py ≤ h - vy then
    [CanvasCmd.setGlobalAlpha (min (finalAlpha w s.z) 1),
     CanvasCmd.moveTo px py,
     CanvasCmd.arc px py (finalSize w s / 2)]
  else
    []

/-- Spec's Batch Renderer over one already-simulated bucket. -/
def renderBucket (w h vx vy : ℚ) (color : String) (stars : List Star) :
    List CanvasCmd :=
  CanvasCmd.setFillStyle color :: CanvasCmd.beginPath ::
    (stars.map (renderStar w h vx vy)).flatten ++ [CanvasCmd.fill]

/-- Spec's Batch Renderer over the already-simulated store. -/
def renderBuckets (w h vx vy : ℚ) : Store → List CanvasCmd
  | [] => []
  | (color, stars) :: rest =>
    renderBucket w h vx vy color stars ++ renderBuckets w h vx vy rest

/-- Spec's phased frame: Simulation Step over the whole population, then
projection/culling and batched drawing of the simulated store. -/
def drawPhased (isTouch : Bool) (w h mouseX mouseY dpr : ℚ)
    (rnd : ℕ → ℕ → Rand) (store : Store) : Store × List CanvasCmd :=
  let vx := vanishingPointX w mouseX
  let vy := vanishingPointY h mouseY
  let store1 := simulateStore isTouch w h rnd 0 store
  (store1,
   CanvasCmd.setGlobalTransform dpr 0 0 dpr 0 0 ::
   CanvasCmd.clearRect 0 0 w h ::
   CanvasCmd.translate vx vy ::
   renderBuckets w h vx vy store1 ++ [CanvasCmd.setGlobalAlpha 1])

/-! ### Derived observations on stores and traces -/

/-- Total particle count across all buckets. -/
def totalCount (st : Store) : ℕ := (st.map (fun p => p.2.length)).sum

/-- Running the frame loop `n` times; `rnds n` supplies frame `n`'s random
draws. Bounds and pointer state are those read by each `draw` call. -/
def iterateFrames (isTouch : Bool) (w h mouseX mouseY dpr : ℚ)
    (rnds : ℕ → ℕ → ℕ → Rand) : ℕ → Store → Store
  | 0, st => st
  | n + 1, st =>
    iterateFrames isTouch w h mouseX mouseY dpr rnds n
      (draw isTouch w h mouseX mouseY dpr (rnds n) st).1

/-- Does a command set the fill style? -/
def isSetFillStyle : CanvasCmd → Bool
  | CanvasCmd.setFillStyle _ => true
  | _ => false

/-- Does a command begin a path? -/
def isBeginPath : CanvasCmd → Bool
  | CanvasCmd.beginPath => true
  | _ => false

/-- Is a command the fill command? -/
def isFillCmd : CanvasCmd → Bool
  | CanvasCmd.fill => true
  | _ => false

/-- The global alpha after a command trace runs, starting from `a`:
`setGlobalAlpha` overwrites it, every other command leaves it alone. -/
def globalAlphaAfter (a : ℚ) : List CanvasCmd → ℚ
  | [] => a
  | CanvasCmd.setGlobalAlpha b :: rest => globalAlphaAfter b rest
  | _ :: rest => globalAlphaAfter a rest

/-! ### Helper lemmas -/

theorem resetStar_z_eq (isTouch : Bool) (w h : ℚ) (r : Rand) :
    (resetStar isTouch w h r).z = w := rfl

theorem stepStar_eq_ite (isTouch : Bool) (w h : ℚ) (r : Rand) (s : Star) :
    stepStar isTouch w h r s =
      if s.z - s.speed ≤ 0 then resetStar isTouch w h r
      else { s with z := s.z - s.speed } := rfl

theorem stepStar_z_pos (isTouch : Bool) (w h : ℚ) (r : Rand) (s : Star)
    (hw : 0 < w) : 0 < (stepStar isTouch w h r s).z := by
  rw [stepStar_eq_ite]
  split
  · exact hw
  · next hz => push_neg at hz; exact hz

theorem stepStar_z_le (isTouch : Bool) (w h : ℚ) (r : Rand) (s : Star)
    (hzw : s.z ≤ w) (hsp : 0 ≤ s.speed) : (stepStar isTouch w h r s).z ≤ w := by
  rw [stepStar_eq_ite]
  split
  · exact le_refl w
  · show s.z - s.speed ≤ w
    linarith

theorem stepStar_size_pos (isTouch : Bool) (w h : ℚ) (r : Rand) (s : Star)
    (hsz : 0 < s.size) (hr : r.Valid) : 0 < (stepStar isTouch w h r s).size := by
  rw [stepStar_eq_ite]
  split
  · show 0 < r.rsize * (maxStarSize - minStarSize) + minStarSize
    have h0 : 0 ≤ r.rsize := hr.2.2.2.2.1
    norm_num [maxStarSize, minStarSize]
    linarith
  · exact hsz

/-! ### Claims about the per-particle simulation update -/

/-- C1: after each frame's per-particle update (depth decremented by the
particle's speed, with an immediate same-frame resample when the result is
≤ 0), the particle's depth is strictly positive, provided the visible
surface width is strictly positive; when the decrement exhausts the depth
the particle is reset in place to the fresh depth `w` (positive and ≤ `w`),
never removed. -/
theorem C1_depth_invariant (isTouch : Bool) (w h : ℚ) (r : Rand) (s : Star)
    (hw : 0 < w) :
    0 < (stepStar isTouch w h r s).z ∧
    (s.z - s.speed ≤ 0 →
      (stepStar isTouch w h r s).z = w ∧ (stepStar isTouch w h r s).z ≤ w) := by
  refine ⟨stepStar_z_pos isTouch w h r s hw, fun hle => ?_⟩
  rw [stepStar_eq_ite, if_pos hle]
  exact ⟨rfl, le_refl w⟩

/-- Witness for C1 at the spec's concrete scenario: a star at depth 1 with
speed 1 at width 100 is resampled the same frame to depth 100 (> 0, ≤ 100). -/
theorem C1_witness :
    0 < (stepStar false 100 100 ⟨0, 0, 0, 0⟩ ⟨0, 0, 1, 4, 1⟩).z ∧
    (stepStar false 100 100 ⟨0, 0, 0, 0⟩ ⟨0, 0, 1, 4, 1⟩).z = 100 := by
  have h := C1_depth_invariant false 100 100 ⟨0, 0, 0, 0⟩ ⟨0, 0, 1, 4, 1⟩ (by norm_num)
  exact ⟨h.1, (h.2 (by norm_num)).1⟩

/-- C5: after any call to `resetStar`, the star satisfies
`x ∈ [-0.5, 0.5] * w * areaMultiplier`, `y ∈ [-0.5, 0.5] * h * areaMultiplier`,
`z = w`, `size ∈ [minStarSize, maxStarSize] = [4, 8]` and
`speed ∈ [minStarSpeed, maxStarSpeed] = [0.05, 0.25]`. -/
theorem C5_resetStar_postconditions (isTouch : Bool) (w h : ℚ) (r : Rand)
    (hw : 0 ≤ w) (hh : 0 ≤ h) (hr : r.Valid) :
    -(1/2) * (w * GENERATION_AREA_MULTIPLIER isTouch) ≤ (resetStar isTouch w h r).x ∧
    (resetStar isTouch w h r).x ≤ (1/2) * (w * GENERATION_AREA_MULTIPLIER isTouch) ∧
    -(1/2) * (h * GENERATION_AREA_MULTIPLIER isTouch) ≤ (resetStar isTouch w h r).y ∧
    (resetStar isTouch w h r).y ≤ (1/2) * (h * GENERATION_AREA_MULTIPLIER isTouch) ∧
    (resetStar isTouch w h r).z = w ∧
    minStarSize ≤ (resetStar isTouch w h r).size ∧
    (resetStar isTouch w h r).size ≤ maxStarSize ∧
    minStarSpeed ≤ (resetStar isTouch w h r).speed ∧
    (resetStar isTouch w h r).speed ≤ maxStarSpeed := by
  obtain ⟨hx0, hx1, hy0, hy1, hs0, hs1, hp0, hp1⟩ := hr
  have hm : 0 ≤ GENERATION_AREA_MULTIPLIER isTouch := by
    unfold GENERATION_AREA_MULTIPLIER
    split <;> norm_num
  have hwm : 0 ≤ w * GENERATION_AREA_MULTIPLIER isTouch := mul_nonneg hw hm
  have hhm : 0 ≤ h * GENERATION_AREA_MULTIPLIER isTouch := mul_nonneg hh hm
  refine ⟨?_, ?_, ?_, ?_, rfl, ?_, ?_, ?_, ?_⟩
  · show -(1/2) * (w * GENERATION_AREA_MULTIPLIER isTouch) ≤
      (r.rx - 1/2) * w * GENERATION_AREA_MULTIPLIER isTouch
    nlinarith [mul_nonneg hx0 hwm]
  · show (r.rx - 1/2) * w * GENERATION_AREA_MULTIPLIER isTouch ≤
      (1/2) * (w * GENERATION_AREA_MULTIPLIER isTouch)
    nlinarith [mul_nonneg (by linarith : (0:ℚ) ≤ 1 - r.rx) hwm]
  · show -(1/2) * (h * GENERATION_AREA_MULTIPLIER isTouch) ≤
      (r.ry - 1/2) * h * GENERATION_AREA_MULTIPLIER isTouch
    nlinarith [mul_nonneg hy0 hhm]
  · show (r.ry - 1/2) * h * GENERATION_AREA_MULTIPLIER isTouch ≤
      (1/2) * (h * GENERATION_AREA_MULTIPLIER isTouch)
    nlinarith [mul_nonneg (by linarith : (0:ℚ) ≤ 1 - r.ry) hhm]
  · show minStarSize ≤ r.rsize * (maxStarSize - minStarSize) + minStarSize
    norm_num [minStarSize, maxStarSize]
    linarith
  · show r.rsize * (maxStarSize - minStarSize) + minStarSize ≤ maxStarSize
    norm_num [minStarSize, maxStarSize]
    linarith
  · show minStarSpeed ≤ r.rspeed * (maxStarSpeed - minStarSpeed) + minStarSpeed
    norm_num [minStarSpeed, maxStarSpeed]
    linarith
  · show r.rspeed * (maxStarSpeed - minStarSpeed) + minStarSpeed ≤ maxStarSpeed
    norm_num [minStarSpeed, maxStarSpeed]
    linarith

/-- Witness for C5 at a concrete resample on a 100 × 50 surface. -/
theorem C5_witness :
    (resetStar false 100 50 ⟨1/2, 1/4, 1/2, 1/2⟩).z = 100 ∧
    minStarSize ≤ (resetStar false 100 50 ⟨1/2, 1/4, 1/2, 1/2⟩).size ∧
    (resetStar false 100 50 ⟨1/2, 1/4, 1/2, 1/2⟩).x ≤
      (1/2) * (100 * GENERATION_AREA_MULTIPLIER false) := by
  have h := C5_resetStar_postconditions false 100 50 ⟨1/2, 1/4, 1/2, 1/2⟩
    (by norm_num) (by norm_num) (by norm_num [Rand.Valid])
  exact ⟨h.2.2.2.2.1, h.2.2.2.2.2.1, h.2.1⟩

/-- C6: the projector's division `k = 128 / z` is never evaluated with
`z ≤ 0`: the depth read by the projection is the stepped depth, which is
strictly positive (and in particular nonzero) whenever the visible width
is — even though initialization may assign an initial depth of exactly 0
(last conjunct: the depth-override draw 0 yields `z = 0`). -/
theorem C6_projection_divisor_positive (isTouch : Bool) (w h : ℚ) (r : Rand)
    (s : Star) (hw : 0 < w) :
    (stepStar isTouch w h r s).z ≠ 0 ∧ 0 < (stepStar isTouch w h r s).z ∧
    (initStar isTouch 100 100 ⟨0, ⟨0, 0, 0, 0⟩, 0⟩).2.z = 0 := by
  have hp := stepStar_z_pos isTouch w h r s hw
  refine ⟨ne_of_gt hp, hp, ?_⟩
  show (0 : ℚ) * 100 = 0
  norm_num

/-- Witness for C6 at width 100. -/
theorem C6_witness :
    (stepStar false 100 100 ⟨0, 0, 0, 0⟩ ⟨0, 0, 50, 4, 1⟩).z ≠ 0 ∧
    (initStar false 100 100 ⟨0, ⟨0, 0, 0, 0⟩, 0⟩).2.z = 0 := by
  have h := C6_projection_divisor_positive false 100 100 ⟨0, 0, 0, 0⟩
    ⟨0, 0, 50, 4, 1⟩ (by norm_num)
  exact ⟨h.1, h.2.2⟩

theorem stepStar_distanceFactor_nonneg (isTouch : Bool) (w h : ℚ) (r : Rand)
    (s : Star) (hw : 0 < w) (hzw : s.z ≤ w) (hsp : 0 ≤ s.speed) :
    0 ≤ distanceFactor w (stepStar isTouch w h r s).z := by
  have hle := stepStar_z_le isTouch w h r s hzw hsp
  unfold distanceFactor
  have hdiv : (stepStar isTouch w h r s).z / w ≤ 1 := by
    rw [div_le_one hw]
    exact hle
  linarith

theorem stepStar_distanceFactor_lt_one (isTouch : Bool) (w h : ℚ) (r : Rand)
    (s : Star) (hw : 0 < w) :
    distanceFactor w (stepStar isTouch w h r s).z < 1 := by
  have hpos := stepStar_z_pos isTouch w h r s hw
  unfold distanceFactor
  have hdiv : 0 < (stepStar isTouch w h r s).z / w := div_pos hpos hw
  linarith

/-- C7: for every particle drawn in a frame (in the steady regime where the
particle's depth does not exceed the visible width and its speed is
positive, as every simulated particle satisfies under unchanged bounds),
the applied alpha equals `min(1, 0.7 + distanceFactor * 0.3)` with
`distanceFactor = 1 - z / visibleWidth`, and lies in `[0.7, 1]`. -/
theorem C7_alpha_range (isTouch : Bool) (w h : ℚ) (r : Rand) (s : Star)
    (hw : 0 < w) (hzw : s.z ≤ w) (hsp : 0 < s.speed) :
    min (finalAlpha w (stepStar isTouch w h r s).z) 1
      = min (7/10 + (1 - (stepStar isTouch w h r s).z / w) * (3/10)) 1 ∧
    7/10 ≤ min (finalAlpha w (stepStar isTouch w h r s).z) 1 ∧
    min (finalAlpha w (stepStar isTouch w h r s).z) 1 ≤ 1 := by
  have hdf0 := stepStar_distanceFactor_nonneg isTouch w h r s hw hzw (le_of_lt hsp)
  have hfa0 : 7/10 ≤ finalAlpha w (stepStar isTouch w h r s).z := by
    unfold finalAlpha
    have := mul_nonneg hdf0 (by norm_num : (0:ℚ) ≤ 3/10)
    linarith
  exact ⟨rfl, le_min hfa0 (by norm_num), min_le_right _ 1⟩

/-- Witness for C7: a star at depth 50 on a 100-wide surface. -/
theorem C7_witness :
    7/10 ≤ min (finalAlpha 100 (stepStar false 100 100 ⟨0, 0, 0, 0⟩ ⟨0, 0, 50, 4, 1⟩).z) 1 ∧
    min (finalAlpha 100 (stepStar false 100 100 ⟨0, 0, 0, 0⟩ ⟨0, 0, 50, 4, 1⟩).z) 1 ≤ 1 := by
  have h := C7_alpha_range false 100 100 ⟨0, 0, 0, 0⟩ ⟨0, 0, 50, 4, 1⟩
    (by norm_num) (by norm_num) (by norm_num)
  exact h.2

/-- C10 (implicit): under bounds unchanged since the particle's last
reset/initialization (`z ≤ w`, positive speed and base size), the stepped
particle satisfies `0 < z ≤ w` at projection time, `distanceFactor ∈ [0, 1)`,
`finalSize` is nonnegative and strictly below the base size (the arc radius
is never negative), `0.7 + distanceFactor * 0.3 < 1`, and the `min(·, 1)`
clamp on the alpha never changes the value. -/
theorem C10_derived_attributes (isTouch : Bool) (w h : ℚ) (r : Rand) (s : Star)
    (hw : 0 < w) (hzw : s.z ≤ w) (hsp : 0 < s.speed) (hsz : 0 < s.size)
    (hr : r.Valid) :
    0 < (stepStar isTouch w h r s).z ∧
    (stepStar isTouch w h r s).z ≤ w ∧
    0 ≤ distanceFactor w (stepStar isTouch w h r s).z ∧
    distanceFactor w (stepStar isTouch w h r s).z < 1 ∧
    0 ≤ finalSize w (stepStar isTouch w h r s) ∧
    finalSize w (stepStar isTouch w h r s) < (stepStar isTouch w h r s).size ∧
    finalAlpha w (stepStar isTouch w h r s).z < 1 ∧
    min (finalAlpha w (stepStar isTouch w h r s).z) 1
      = finalAlpha w (stepStar isTouch w h r s).z := by
  have hzpos := stepStar_z_pos isTouch w h r s hw
  have hzle := stepStar_z_le isTouch w h r s hzw (le_of_lt hsp)
  have hdf0 := stepStar_distanceFactor_nonneg isTouch w h r s hw hzw (le_of_lt hsp)
  have hdf1 := stepStar_distanceFactor_lt_one isTouch w h r s hw
  have hsize := stepStar_size_pos isTouch w h r s hsz hr
  have hpow0 : 0 ≤ distanceFactor w (stepStar isTouch w h r s).z ^ BRIGHTNESS_CURVE_POWER :=
    pow_nonneg hdf0 _
  have hpow1 : distanceFactor w (stepStar isTouch w h r s).z ^ BRIGHTNESS_CURVE_POWER < 1 :=
    pow_lt_one₀ hdf0 hdf1 (by norm_num [BRIGHTNESS_CURVE_POWER])
  have hfa1 : finalAlpha w (stepStar isTouch w h r s).z < 1 := by
    unfold finalAlpha
    nlinarith
  refine ⟨hzpos, hzle, hdf0, hdf1, ?_, ?_, hfa1, min_eq_left (le_of_lt hfa1)⟩
  · exact mul_nonneg hpow0 (le_of_lt hsize)
  · have h1 := mul_lt_mul_of_pos_right hpow1 hsize
    rw [one_mul] at h1
    exact h1

/-- Witness for C10: a star at depth 150 on a 200-wide surface. -/
theorem C10_witness :
    0 ≤ finalSize 200 (stepStar false 200 100 ⟨0, 0, 0, 0⟩ ⟨3, 7, 150, 5, 1/10⟩) ∧
    finalSize 200 (stepStar false 200 100 ⟨0, 0, 0, 0⟩ ⟨3, 7, 150, 5, 1/10⟩)
      < (stepStar false 200 100 ⟨0, 0, 0, 0⟩ ⟨3, 7, 150, 5, 1/10⟩).size := by
  have h := C10_derived_attributes false 200 100 ⟨0, 0, 0, 0⟩ ⟨3, 7, 150, 5, 1/10⟩
    (by norm_num) (by norm_num) (by norm_num) (by norm_num) (by norm_num [Rand.Valid])
  exact ⟨h.2.2.2.2.1, h.2.2.2.2.2.1⟩

/-- C2: in each frame, a particle is appended to the draw path (its
commands are nonempty, a `moveTo`/`arc` pair with its alpha) if and only if
its projected coordinates `px = x * (128 / z)` and `py = y * (128 / z)`
(of the already-simulated particle) satisfy `px ∈ [-vx, w - vx]` and
`py ∈ [-vy, h - vy]` with `(vx, vy) = (w/2 - mouseX * parallaxFactor,
h/2 - mouseY * parallaxFactor)`; a particle failing the test emits nothing
that frame but its depth still advances (first conjunct). -/
theorem C2_visibility_test (isTouch : Bool) (w h mouseX mouseY : ℚ)
    (r : Rand) (s : Star) :
    (drawStar isTouch w h (vanishingPointX w mouseX) (vanishingPointY h mouseY) r s).1
      = stepStar isTouch w h r s ∧
    ((drawStar isTouch w h (vanishingPointX w mouseX) (vanishingPointY h mouseY) r s).2
        ≠ [] ↔
      (-(vanishingPointX w mouseX) ≤
          (stepStar isTouch w h r s).x * (128 / (stepStar isTouch w h r s).z) ∧
       (stepStar isTouch w h r s).x * (128 / (stepStar isTouch w h r s).z) ≤
          w - vanishingPointX w mouseX ∧
       -(vanishingPointY h mouseY) ≤
          (stepStar isTouch w h r s).y * (128 / (stepStar isTouch w h r s).z) ∧
       (stepStar isTouch w h r s).y * (128 / (stepStar isTouch w h r s).z) ≤
          h - vanishingPointY h mouseY)) := by
  by_cases hvis :
      -(vanishingPointX w mouseX) ≤
          (stepStar isTouch w h r s).x * (128 / (stepStar isTouch w h r s).z) ∧
       (stepStar isTouch w h r s).x * (128 / (stepStar isTouch w h r s).z) ≤
          w - vanishingPointX w mouseX ∧
       -(vanishingPointY h mouseY) ≤
          (stepStar isTouch w h r s).y * (128 / (stepStar isTouch w h r s).z) ∧
       (stepStar isTouch w h r s).y * (128 / (stepStar isTouch w h r s).z) ≤
          h - vanishingPointY h mouseY
  · simp [drawStar, hvis]
  · simp [drawStar, hvis]

/-! ### The interleaved loop versus the spec's phased pipeline -/

theorem drawStar_eq_render (isTouch : Bool) (w h vx vy : ℚ) (r : Rand) (s : Star) :
    drawStar isTouch w h vx vy r s =
      (stepStar isTouch w h r s, renderStar w h vx vy (stepStar isTouch w h r s)) := by
  by_cases hvis :
      -vx ≤ (stepStar isTouch w h r s).x * (128 / (stepStar isTouch w h r s).z) ∧
      (stepStar isTouch w h r s).x * (128 / (stepStar isTouch w h r s).z) ≤ w - vx ∧
      -vy ≤ (stepStar isTouch w h r s).y * (128 / (stepStar isTouch w h r s).z) ∧
      (stepStar isTouch w h r s).y * (128 / (stepStar isTouch w h r s).z) ≤ h - vy
  · simp [drawStar, renderStar, hvis]
  · simp [drawStar, renderStar, hvis]

theorem drawStars_eq (isTouch : Bool) (w h vx vy : ℚ) (rnd : ℕ → Rand)
    (stars : List Star) :
    ∀ i : ℕ,
      drawStars isTouch w h vx vy rnd i stars =
        (stepStars isTouch w h rnd i stars,
         ((stepStars isTouch w h rnd i stars).map (renderStar w h vx vy)).flatten) := by
  induction stars with
  | nil => intro i; rfl
  | cons s rest ih =>
    intro i
    simp [drawStars, stepStars, drawStar_eq_render, ih (i + 1)]

theorem drawBucket_eq (isTouch : Bool) (w h vx vy : ℚ) (rnd : ℕ → Rand)
    (color : String) (stars : List Star) :
    drawBucket isTouch w h vx vy rnd color stars =
      (stepStars isTouch w h rnd 0 stars,
       renderBucket w h vx vy color (stepStars isTouch w h rnd 0 stars)) := by
  simp [drawBucket, renderBucket, drawStars_eq]

theorem drawBuckets_eq (isTouch : Bool) (w h vx vy : ℚ) (rnd : ℕ → ℕ → Rand)
    (st : Store) :
    ∀ b : ℕ,
      drawBuckets isTouch w h vx vy rnd b st =
        (simulateStore isTouch w h rnd b st,
         renderBuckets w h vx vy (simulateStore isTouch w h rnd b st)) := by
  induction st with
  | nil => intro b; rfl
  | cons p rest ih =>
    intro b
    obtain ⟨color, stars⟩ := p
    simp [drawBuckets, simulateStore, renderBuckets, drawBucket_eq, ih (b + 1)]

/-- C9: the implemented per-frame loop, which interleaves each particle's
simulation update with its projection and drawing inside the per-bucket
loop, produces exactly the frame of the spec's phased data flow (Simulation
Step over the entire population first, then projection/culling, then
batched drawing): same end-of-frame store and same command trace, hence the
same set of drawn particles. -/
theorem C9_interleaved_refines_phased (isTouch : Bool)
    (w h mouseX mouseY dpr : ℚ) (rnd : ℕ → ℕ → Rand) (store : Store) :
    draw isTouch w h mouseX mouseY dpr rnd store =
      drawPhased isTouch w h mouseX mouseY dpr rnd store := by
  simp [draw, drawPhased, drawBuckets_eq]

/-! ### Population bookkeeping -/

theorem stepStars_length (isTouch : Bool) (w h : ℚ) (rnd : ℕ → Rand)
    (stars : List Star) :
    ∀ i : ℕ, (stepStars isTouch w h rnd i stars).length = stars.length := by
  induction stars with
  | nil => intro i; rfl
  | cons s rest ih => intro i; simp [stepStars, ih (i + 1)]

theorem simulateStore_fst (isTouch : Bool) (w h : ℚ) (rnd : ℕ → ℕ → Rand)
    (st : Store) :
    ∀ b : ℕ, (simulateStore isTouch w h rnd b st).map Prod.fst = st.map Prod.fst := by
  induction st with
  | nil => intro b; rfl
  | cons p rest ih =>
    intro b
    obtain ⟨c, stars⟩ := p
    simp [simulateStore, ih (b + 1)]

theorem totalCount_simulateStore (isTouch : Bool) (w h : ℚ) (rnd : ℕ → ℕ → Rand)
    (st : Store) :
    ∀ b : ℕ, totalCount (simulateStore isTouch w h rnd b st) = totalCount st := by
  induction st with
  | nil => intro b; rfl
  | cons p rest ih =>
    intro b
    obtain ⟨c, stars⟩ := p
    simp [simulateStore, totalCount, stepStars_length] at *
    exact ih (b + 1)

theorem draw_fst (isTouch : Bool) (w h mouseX mouseY dpr : ℚ)
    (rnd : ℕ → ℕ → Rand) (st : Store) :
    (draw isTouch w h mouseX mouseY dpr rnd st).1 =
      simulateStore isTouch w h rnd 0 st := by
  simp [draw, drawBuckets_eq]

theorem getD_mem_or {α : Type} (l : List α) (n : ℕ) (d : α) :
    l.getD n d ∈ l ∨ l.getD n d = d := by
  induction l generalizing n with
  | nil => right; simp [List.getD]
  | cons a t ih =>
    cases n with
    | zero => left; simp [List.getD]
    | succ n =>
      rcases ih n with hmem | heq
      · left
        simpa [List.getD] using List.mem_cons_of_mem a hmem
      · right
        simpa [List.getD] using heq

theorem initStar_fst_mem (isTouch : Bool) (w h : ℚ) (r : InitRand) :
    (initStar isTouch w h r).1 ∈ starColors := by
  rcases getD_mem_or starColors (⌊r.rcolor * starColors.length⌋).toNat "#FFFFFF"
      with hmem | heq
  · exact hmem
  · show starColors.getD (⌊r.rcolor * starColors.length⌋).toNat "#FFFFFF" ∈ starColors
    rw [heq]
    simp [starColors]

theorem addToBucket_keys (color : String) (s : Star) :
    ∀ st : Store, (addToBucket st color s).map Prod.fst = st.map Prod.fst := by
  intro st
  induction st with
  | nil => rfl
  | cons p rest ih =>
    obtain ⟨c, stars⟩ := p
    by_cases hc : c = color
    · simp [addToBucket, hc]
    · simp [addToBucket, hc, ih]

theorem totalCount_addToBucket (color : String) (s : Star) :
    ∀ st : Store, color ∈ st.map Prod.fst →
      totalCount (addToBucket st color s) = totalCount st + 1 := by
  intro st
  induction st with
  | nil => intro hmem; simp at hmem
  | cons p rest ih =>
    intro hmem
    obtain ⟨c, stars⟩ := p
    by_cases hc : c = color
    · simp [addToBucket, hc, totalCount]
      omega
    · have hrest : color ∈ rest.map Prod.fst := by
        rw [List.map_cons] at hmem
        rcases List.mem_cons.mp hmem with heq | hmem2
        · exact absurd heq.symm hc
        · exact hmem2
      have hih := ih hrest
      simp only [addToBucket, if_neg hc, totalCount, List.map_cons, List.sum_cons] at hih ⊢
      omega

theorem totalCount_init_foldl (isTouch : Bool) (w h : ℚ) (rnd : ℕ → InitRand) :
    ∀ (l : List ℕ) (st : Store), st.map Prod.fst = starColors →
      totalCount (l.foldl
          (fun st i =>
            let p := initStar isTouch w h (rnd i)
            addToBucket st p.1 p.2)
          st)
        = totalCount st + l.length := by
  intro l
  induction l with
  | nil => intro st hkeys; simp
  | cons i rest ih =>
    intro st hkeys
    have hmem : (initStar isTouch w h (rnd i)).1 ∈ st.map Prod.fst := by
      rw [hkeys]; exact initStar_fst_mem isTouch w h (rnd i)
    have hkeys2 : (addToBucket st (initStar isTouch w h (rnd i)).1
        (initStar isTouch w h (rnd i)).2).map Prod.fst = starColors := by
      rw [addToBucket_keys, hkeys]
    simp only [List.foldl_cons]
    rw [ih _ hkeys2, totalCount_addToBucket _ _ _ hmem]
    simp
    omega

/-- C4: the total particle count across buckets equals `numStars = 3000`
after any (re)initialization; one frame leaves every bucket's color and
every particle's bucket position in place (the new store is the in-place
per-bucket simulation of the old one, so resampling never moves a particle
between buckets), and any number of frames leaves the total unchanged. -/
theorem C4_population_constant (isTouch : Bool)
    (w h w2 h2 mouseX mouseY dpr : ℚ) (irnd : ℕ → InitRand)
    (rnd : ℕ → ℕ → Rand) (rnds : ℕ → ℕ → ℕ → Rand) :
    totalCount (initializeStars isTouch w h irnd) = numStars ∧
    (∀ st : Store,
      ((draw isTouch w2 h2 mouseX mouseY dpr rnd st).1).map Prod.fst
        = st.map Prod.fst) ∧
    (∀ st : Store,
      (draw isTouch w2 h2 mouseX mouseY dpr rnd st).1
        = simulateStore isTouch w2 h2 rnd 0 st) ∧
    (∀ (n : ℕ) (st : Store),
      totalCount (iterateFrames isTouch w2 h2 mouseX mouseY dpr rnds n st)
        = totalCount st) := by
  refine ⟨?_, ?_, ?_, ?_⟩
  · unfold initializeStars
    rw [totalCount_init_foldl isTouch w h irnd _ emptyStore (by decide)]
    simp [totalCount, emptyStore, starColors]
  · intro st
    rw [draw_fst, simulateStore_fst]
  · intro st
    exact draw_fst isTouch w2 h2 mouseX mouseY dpr rnd st
  · intro n
    induction n with
    | zero => intro st; rfl
    | succ n ih =>
      intro st
      show totalCount (iterateFrames isTouch w2 h2 mouseX mouseY dpr rnds n
        (draw isTouch w2 h2 mouseX mouseY dpr (rnds n) st).1) = totalCount st
      rw [ih, draw_fst, totalCount_simulateStore]

/-! ### Batch-renderer trace structure -/

theorem renderStar_cases (w h vx vy : ℚ) (s : Star) :
    renderStar w h vx vy s = [] ∨
      ∃ a x y rad, renderStar w h vx vy s =
        [CanvasCmd.setGlobalAlpha a, CanvasCmd.moveTo x y, CanvasCmd.arc x y rad] := by
  by_cases hvis :
      -vx ≤ s.x * (128 / s.z) ∧ s.x * (128 / s.z) ≤ w - vx ∧
      -vy ≤ s.y * (128 / s.z) ∧ s.y * (128 / s.z) ≤ h - vy
  · right
    refine ⟨min (finalAlpha w s.z) 1, s.x * (128 / s.z), s.y * (128 / s.z),
      finalSize w s / 2, ?_⟩
    simp [renderStar, hvis]
  · left
    simp [renderStar, hvis]

theorem drawStars_countP_zero (isTouch : Bool) (w h vx vy : ℚ) (rnd : ℕ → Rand)
    (p : CanvasCmd → Bool)
    (hA : ∀ a, p (CanvasCmd.setGlobalAlpha a) = false)
    (hM : ∀ x y, p (CanvasCmd.moveTo x y) = false)
    (hR : ∀ x y rad, p (CanvasCmd.arc x y rad) = false)
    (stars : List Star) :
    ∀ i : ℕ, ((drawStars isTouch w h vx vy rnd i stars).2).countP p = 0 := by
  induction stars with
  | nil => intro i; rfl
  | cons s rest ih =>
    intro i
    have hstar : ((drawStar isTouch w h vx vy (rnd i) s).2).countP p = 0 := by
      rw [drawStar_eq_render]
      rcases renderStar_cases w h vx vy (stepStar isTouch w h (rnd i) s)
          with hnil | ⟨a, x, y, rad, hcons⟩
      · simp [hnil]
      · simp [hcons, List.countP_cons, hA, hM, hR]
    simp [drawStars, List.countP_append, hstar, ih (i + 1)]

theorem drawBuckets_count (isTouch : Bool) (w h vx vy : ℚ) (rnd : ℕ → ℕ → Rand)
    (p : CanvasCmd → Bool)
    (hA : ∀ a, p (CanvasCmd.setGlobalAlpha a) = false)
    (hM : ∀ x y, p (CanvasCmd.moveTo x y) = false)
    (hR : ∀ x y rad, p (CanvasCmd.arc x y rad) = false)
    (hF : ∀ c, p (CanvasCmd.setFillStyle c) = true)
    (hB : p CanvasCmd.beginPath = false) (hFill : p CanvasCmd.fill = false)
    (st : Store) :
    ∀ b : ℕ, ((drawBuckets isTouch w h vx vy rnd b st).2).countP p = st.length := by
  induction st with
  | nil => intro b; rfl
  | cons q rest ih =>
    intro b
    obtain ⟨color, stars⟩ := q
    simp [drawBuckets, drawBucket, List.countP_append, List.countP_cons,
      hA, hF, hB, hFill,
      drawStars_countP_zero isTouch w h vx vy (rnd b) p hA hM hR stars 0,
      ih (b + 1)]

theorem drawBuckets_count_beginPath (isTouch : Bool) (w h vx vy : ℚ)
    (rnd : ℕ → ℕ → Rand) (st : Store) :
    ∀ b : ℕ,
      ((drawBuckets isTouch w h vx vy rnd b st).2).countP isBeginPath = st.length := by
  induction st with
  | nil => intro b; rfl
  | cons q rest ih =>
    intro b
    obtain ⟨color, stars⟩ := q
    simp [drawBuckets, drawBucket, List.countP_append, List.countP_cons,
      isBeginPath,
      drawStars_countP_zero isTouch w h vx vy (rnd b) isBeginPath
        (fun _ => rfl) (fun _ _ => rfl) (fun _ _ _ => rfl) stars 0,
      ih (b + 1)]

theorem drawBuckets_count_fill (isTouch : Bool) (w h vx vy : ℚ)
    (rnd : ℕ → ℕ → Rand) (st : Store) :
    ∀ b : ℕ,
      ((drawBuckets isTouch w h vx vy rnd b st).2).countP isFillCmd = st.length := by
  induction st with
  | nil => intro b; rfl
  | cons q rest ih =>
    intro b
    obtain ⟨color, stars⟩ := q
    simp [drawBuckets, drawBucket, List.countP_append, List.countP_cons,
      isFillCmd,
      drawStars_countP_zero isTouch w h vx vy (rnd b) isFillCmd
        (fun _ => rfl) (fun _ _ => rfl) (fun _ _ _ => rfl) stars 0,
      ih (b + 1)]

theorem globalAlphaAfter_append (l1 : List CanvasCmd) :
    ∀ (a : ℚ) (l2 : List CanvasCmd),
      globalAlphaAfter a (l1 ++ l2) = globalAlphaAfter (globalAlphaAfter a l1) l2 := by
  induction l1 with
  | nil => intro a l2; rfl
  | cons c rest ih =>
    intro a l2
    cases c <;> simp [globalAlphaAfter, ih]

/-- C3 (amended): for each color bucket the fill style is set to that
bucket's color exactly once, one path is begun, and one fill command is
issued for the whole path after all of the bucket's particles are appended
(the per-star commands contain no fill-style, begin-path or fill command);
across the frame the counts of fill-style, begin-path and fill commands
each equal the bucket count, so those state changes are proportional to the
palette size and not the particle count. The global alpha, however, is
restored to 1 once at the end of the frame, after all buckets have been
drawn — not before each next bucket begins (see the counterexample). -/
theorem C3_batch_renderer (isTouch : Bool) (w h mouseX mouseY dpr : ℚ)
    (rnd : ℕ → ℕ → Rand) (st : Store) :
    ((draw isTouch w h mouseX mouseY dpr rnd st).2).countP isSetFillStyle = st.length ∧
    ((draw isTouch w h mouseX mouseY dpr rnd st).2).countP isBeginPath = st.length ∧
    ((draw isTouch w h mouseX mouseY dpr rnd st).2).countP isFillCmd = st.length ∧
    (∀ (vx vy : ℚ) (rb : ℕ → Rand) (color : String) (stars : List Star),
      (drawBucket isTouch w h vx vy rb color stars).2
        = CanvasCmd.setFillStyle color :: CanvasCmd.beginPath ::
            (drawStars isTouch w h vx vy rb 0 stars).2 ++ [CanvasCmd.fill] ∧
      ((drawStars isTouch w h vx vy rb 0 stars).2).countP isSetFillStyle = 0 ∧
      ((drawStars isTouch w h vx vy rb 0 stars).2).countP isBeginPath = 0 ∧
      ((drawStars isTouch w h vx vy rb 0 stars).2).countP isFillCmd = 0) ∧
    (∀ a : ℚ, globalAlphaAfter a ((draw isTouch w h mouseX mouseY dpr rnd st).2) = 1) := by
  refine ⟨?_, ?_, ?_, ?_, ?_⟩
  · simp [draw, List.countP_cons, List.countP_append, isSetFillStyle,
      drawBuckets_count isTouch w h (vanishingPointX w mouseX)
        (vanishingPointY h mouseY) rnd isSetFillStyle
        (fun _ => rfl) (fun _ _ => rfl) (fun _ _ _ => rfl) (fun _ => rfl) rfl rfl st 0]
  · simp [draw, List.countP_cons, List.countP_append, isBeginPath,
      drawBuckets_count_beginPath isTouch w h (vanishingPointX w mouseX)
        (vanishingPointY h mouseY) rnd st 0]
  · simp [draw, List.countP_cons, List.countP_append, isFillCmd,
      drawBuckets_count_fill isTouch w h (vanishingPointX w mouseX)
        (vanishingPointY h mouseY) rnd st 0]
  · intro vx vy rb color stars
    refine ⟨rfl, ?_, ?_, ?_⟩
    · exact drawStars_countP_zero isTouch w h vx vy rb isSetFillStyle
        (fun _ => rfl) (fun _ _ => rfl) (fun _ _ _ => rfl) stars 0
    · exact drawStars_countP_zero isTouch w h vx vy rb isBeginPath
        (fun _ => rfl) (fun _ _ => rfl) (fun _ _ _ => rfl) stars 0
    · exact drawStars_countP_zero isTouch w h vx vy rb isFillCmd
        (fun _ => rfl) (fun _ _ => rfl) (fun _ _ _ => rfl) stars 0
  · intro a
    simp [draw, globalAlphaAfter, globalAlphaAfter_append]

/-- Counterexample to C3 as stated: on a 100 × 100 surface with two
buckets — a white bucket holding one visible star whose applied alpha is
17/20 and a second bucket — the frame trace runs the second bucket's
commands immediately after the first bucket's fill, and the global alpha
in effect when the second bucket's drawing begins is 17/20, not 1: the
alpha is restored to 1 only once, after all buckets. -/
theorem C3_counterexample :
    (draw false 100 100 0 0 1 (fun _ _ => ⟨0, 0, 0, 0⟩)
        [("#FFFFFF", [⟨0, 0, 51, 4, 1⟩]), ("#B0C4DE", [])]).2
      = [CanvasCmd.setGlobalTransform 1 0 0 1 0 0,
         CanvasCmd.clearRect 0 0 100 100,
         CanvasCmd.translate 50 50,
         CanvasCmd.setFillStyle "#FFFFFF", CanvasCmd.beginPath,
         CanvasCmd.setGlobalAlpha (17/20), CanvasCmd.moveTo 0 0,
         CanvasCmd.arc 0 0 (1/512), CanvasCmd.fill] ++
        ([CanvasCmd.setFillStyle "#B0C4DE", CanvasCmd.beginPath, CanvasCmd.fill] ++
         [CanvasCmd.setGlobalAlpha 1]) ∧
    globalAlphaAfter 1
        [CanvasCmd.setGlobalTransform 1 0 0 1 0 0,
         CanvasCmd.clearRect 0 0 100 100,
         CanvasCmd.translate 50 50,
         CanvasCmd.setFillStyle "#FFFFFF", CanvasCmd.beginPath,
         CanvasCmd.setGlobalAlpha (17/20), CanvasCmd.moveTo 0 0,
         CanvasCmd.arc 0 0 (1/512), CanvasCmd.fill]
      = 17/20 ∧ (17/20 : ℚ) ≠ 1 := by
  refine ⟨?_, rfl, by norm_num⟩
  norm_num [draw, drawBuckets, drawBucket, drawStars, drawStar, stepStar, resetStar,
    vanishingPointX, vanishingPointY, parallaxFactor, finalAlpha, distanceFactor,
    finalSize, BRIGHTNESS_CURVE_POWER, min_def]

/-! ### Animation driver -/

theorem driverStep_inv (d : Driver)
    (hinv : (d.hidden = true → d.pending = []) ∧
            (d.hidden = false → d.pending = [d.animationFrameId]))
    (e : DriverEvent) :
    ((driverStep d e).hidden = true → (driverStep d e).pending = []) ∧
    ((driverStep d e).hidden = false →
      (driverStep d e).pending = [(driverStep d e).animationFrameId]) := by
  obtain ⟨hh, hv⟩ := hinv
  cases e with
  | toggleVisibility =>
    cases hd : d.hidden with
    | true =>
      have hp : d.pending = [] := hh hd
      simp [driverStep, hd, animate, hp]
    | false =>
      have hp : d.pending = [d.animationFrameId] := hv hd
      simp [driverStep, hd, cancelFrame, hp]
  | frameFired =>
    cases hpd : d.pending with
    | nil =>
      have hstep : driverStep d DriverEvent.frameFired = d := by
        simp [driverStep, hpd]
      rw [hstep]
      exact ⟨hh, hv⟩
    | cons x rest =>
      have hd : d.hidden = false := by
        cases hdb : d.hidden with
        | false => rfl
        | true =>
          have hnil := hh hdb
          rw [hpd] at hnil
          exact List.noConfusion hnil
      have hone : x :: rest = [d.animationFrameId] := by
        rw [← hpd, hv hd]
      have hrest : rest = [] := by
        injection hone with h1 h2
      simp [driverStep, hpd, animate, hrest, hd]

theorem foldl_driver_inv :
    ∀ (evs : List DriverEvent) (d : Driver),
      ((d.hidden = true → d.pending = []) ∧
       (d.hidden = false → d.pending = [d.animationFrameId])) →
      (((evs.foldl driverStep d).hidden = true →
          (evs.foldl driverStep d).pending = []) ∧
       ((evs.foldl driverStep d).hidden = false →
          (evs.foldl driverStep d).pending =
            [(evs.foldl driverStep d).animationFrameId])) := by
  intro evs
  induction evs with
  | nil => intro d hinv; simpa using hinv
  | cons e rest ih =>
    intro d hinv
    simp only [List.foldl_cons]
    exact ih (driverStep d e) (driverStep_inv d hinv e)

theorem driverRun_inv (evs : List DriverEvent) :
    ((driverRun evs).hidden = true → (driverRun evs).pending = []) ∧
    ((driverRun evs).hidden = false →
      (driverRun evs).pending = [(driverRun evs).animationFrameId]) := by
  unfold driverRun
  exact foldl_driver_inv evs driverInit
    ⟨fun habs => absurd habs (by decide), fun _ => rfl⟩

/-- C8: over every finite event sequence from the initial `animate` call,
the driver keeps at most one frame request in flight; cancelling is
idempotent (re-cancelling changes nothing); a visibility-gained toggle in
the hidden state runs `draw` once more (frames increase) and leaves exactly
one request in flight, so the loop resumes; and a visibility-lost toggle
in the visible state withdraws the pending request. -/
theorem C8_visibility_toggling (evs : List DriverEvent) :
    (driverRun evs).pending.length ≤ 1 ∧
    cancelFrame (cancelFrame (driverRun evs)) = cancelFrame (driverRun evs) ∧
    ((driverRun evs).hidden = true →
      (driverStep (driverRun evs) DriverEvent.toggleVisibility).frames
          = (driverRun evs).frames + 1 ∧
      (driverStep (driverRun evs) DriverEvent.toggleVisibility).pending.length = 1) ∧
    ((driverRun evs).hidden = false →
      (driverStep (driverRun evs) DriverEvent.toggleVisibility).pending = []) := by
  obtain ⟨hh, hv⟩ := driverRun_inv evs
  cases hdb : (driverRun evs).hidden with
  | false =>
    have hp := hv hdb
    refine ⟨?_, ?_, ?_, ?_⟩
    · simp [hp]
    · simp [cancelFrame, hp]
    · intro habs
      exact absurd habs (by simp)
    · intro _
      simp [driverStep, hdb, cancelFrame, hp]
  | true =>
    have hp := hh hdb
    refine ⟨?_, ?_, ?_, ?_⟩
    · simp [hp]
    · simp [cancelFrame, hp]
    · intro _
      refine ⟨?_, ?_⟩
      · simp [driverStep, hdb, animate]
      · simp [driverStep, hdb, animate, hp]
    · intro habs
      exact absurd habs (by simp)

/-- Witness for C8 at the sequence "toggle to hidden, then toggle back":
applied at the one-toggle sequence, whose resulting state is hidden. -/
theorem C8_witness :
    (driverRun [DriverEvent.toggleVisibility]).pending.length ≤ 1 ∧
    (driverStep (driverRun [DriverEvent.toggleVisibility])
        DriverEvent.toggleVisibility).frames
      = (driverRun [DriverEvent.toggleVisibility]).frames + 1 ∧
    (driverStep (driverRun [DriverEvent.toggleVisibility])
        DriverEvent.toggleVisibility).pending.length = 1 := by
  have h := C8_visibility_toggling [DriverEvent.toggleVisibility]
  have hd : (driverRun [DriverEvent.toggleVisibility]).hidden = true := by decide
  exact ⟨h.1, (h.2.2.1 hd).1, (h.2.2.1 hd).2⟩

end Starfield
